import Mathlib

/-
Verification of the synchronization and retry engine implemented in
src/youtube_creator_economy_NOTION.py (class YouTubeCreatorEconomyAutomation).

Modelling conventions, used throughout this file:
  * texts (Python str) are lists of characters (Txt);
  * Python sets are Finsets; Python dicts are insertion-ordered association
    lists, built with dictInsert which models CPython assignment semantics
    (an existing key keeps its position and gets the new value, a new key is
    appended at the end);
  * calls against the Notion HTTP API are recorded as values of an explicit
    NotionCall type, so that theorems can state which writes a code path
    performs; exceptions raised by a write are modelled by a Boolean writeOk
    oracle (when it is false the state updates that follow the write in the
    source are not performed, exactly as an exception would skip them);
  * the Gemini transformation connector is an oracle from the index of the
    API call to its outcome (a text, or an error message string).
-/

/-- Text is modelled as a list of characters. -/
abbrev Txt := List Char

/-- Python substring test, needle in hay. -/
def containsSub (needle hay : Txt) : Bool :=
  hay.tails.any (fun t => needle.isPrefixOf t)

/-- Python str.lower, character-wise lowering. -/
def lowerTxt (t : Txt) : Txt := t.map Char.toLower

/-- Python str.strip, whitespace removed from both ends. -/
def pyStrip (t : Txt) : Txt :=
  ((t.dropWhile Char.isWhitespace).reverse.dropWhile Char.isWhitespace).reverse

/-- Association-list keys (the Python dict key view). -/
def keys {β : Type} (d : List (Txt × β)) : List Txt := d.map Prod.fst

/-- CPython dict assignment d[k] = v: an existing key keeps its position and
receives the new value, a fresh key is appended at the end. -/
def dictInsert {β : Type} (k : Txt) (v : β) : List (Txt × β) → List (Txt × β)
  | [] => [(k, v)]
  | p :: d => if p.1 = k then (p.1, v) :: d else p :: dictInsert k v d

/-- Python dict key lookup d[k] (first entry with the key). -/
def lookupKey {β : Type} (k : Txt) : List (Txt × β) → Option β
  | [] => none
  | p :: d => if p.1 = k then some p.2 else lookupKey k d

/-- Python del d[k]: remove the (unique) entry with key k. -/
def delKey {β : Type} (k : Txt) : List (Txt × β) → List (Txt × β)
  | [] => []
  | p :: d => if p.1 = k then d else p :: delKey k d

/-- Notion rich-text fragment cap, 2000 characters (lines 314 and 367 of the
source slice the transcript in steps of 2000). -/
def FRAGMENT_MAX : Nat := 2000

/-- Transcript chunking from add_to_notion (lines 366-372) and
update_notion_page (lines 313-319): for i in range(0, len(transcript), 2000)
take transcript[i:i+2000]. -/
def fragment : Txt → List Txt
  | [] => []
  | c :: rest => ((c :: rest).take FRAGMENT_MAX) :: fragment ((c :: rest).drop FRAGMENT_MAX)
termination_by l => l.length
decreasing_by
  simp only [List.length_drop, List.length_cons, FRAGMENT_MAX]
  omega

/-- Append batching from add_to_notion (lines 412-414) and update_notion_page
(lines 341-343): for i in range(0, len(remaining), 100) take
remaining[i:i+100]. -/
def batch100 {α : Type} : List α → List (List α)
  | [] => []
  | x :: rest => ((x :: rest).take 100) :: batch100 ((x :: rest).drop 100)
termination_by l => l.length
decreasing_by
  simp only [List.length_drop, List.length_cons]
  omega

theorem fragment_flatten (l : Txt) : (fragment l).flatten = l := by
  cases l with
  | nil => simp [fragment]
  | cons c rest =>
    have ih := fragment_flatten ((c :: rest).drop FRAGMENT_MAX)
    simp only [fragment, List.flatten_cons, ih]
    exact List.take_append_drop _ _
termination_by l.length
decreasing_by
  simp only [List.length_drop, List.length_cons, FRAGMENT_MAX]
  omega

theorem fragment_length_le (l : Txt) : ∀ f ∈ fragment l, f.length ≤ FRAGMENT_MAX := by
  cases l with
  | nil => simp [fragment]
  | cons c rest =>
    intro f hf
    have ih := fragment_length_le ((c :: rest).drop FRAGMENT_MAX)
    rw [fragment] at hf
    rcases List.mem_cons.mp hf with hf | hf
    · subst hf
      exact List.length_take_le _ _
    · exact ih f hf
termination_by l.length
decreasing_by
  simp only [List.length_drop, List.length_cons, FRAGMENT_MAX]
  omega

theorem batch100_flatten {α : Type} (l : List α) : (batch100 l).flatten = l := by
  cases l with
  | nil => simp [batch100]
  | cons x rest =>
    have ih := batch100_flatten ((x :: rest).drop 100)
    simp only [batch100, List.flatten_cons, ih]
    exact List.take_append_drop _ _
termination_by l.length
decreasing_by
  simp only [List.length_drop, List.length_cons]
  omega

theorem batch100_length_le {α : Type} (l : List α) : ∀ b ∈ batch100 l, b.length ≤ 100 := by
  cases l with
  | nil => simp [batch100]
  | cons x rest =>
    intro b hb
    have ih := batch100_length_le ((x :: rest).drop 100)
    rw [batch100] at hb
    rcases List.mem_cons.mp hb with hb | hb
    · subst hb
      exact List.length_take_le _ _
    · exact ih b hb
termination_by l.length
decreasing_by
  simp only [List.length_drop, List.length_cons]
  omega

/-- Block types written to Notion pages. -/
inductive Block where
  | heading (t : Txt)
  | divider
  | para (t : Txt)
deriving DecidableEq

/-- The heading block prepended to every document (lines 322 and 381). -/
def headingBlock : Block := Block.heading "Full Transcript".toList

/-- Initial children of a page: heading, divider, first 98 fragments
(lines 321-325 and 380-384). -/
def initialBlocks (chunks : List Txt) : List Block :=
  headingBlock :: Block.divider :: (chunks.take 98).map Block.para

/-- C5: fragmenting any text yields an ordered sequence of fragments, each of
length at most FRAGMENT_MAX = 2000 characters, whose in-order concatenation
is exactly the original text. -/
theorem C5_fragment_roundtrip (t : Txt) :
    (fragment t).flatten = t
      ∧ ((fragment t).all (fun f => decide (f.length ≤ FRAGMENT_MAX))) = true := by
  refine ⟨fragment_flatten t, ?_⟩
  simp only [List.all_eq_true, decide_eq_true_eq]
  exact fragment_length_le t

/-- C5 witness: the round trip evaluated on a concrete text. -/
theorem C5_fragment_roundtrip_witness :
    (fragment "hello world".toList).flatten = "hello world".toList
      ∧ ((fragment "hello world".toList).all
          (fun f => decide (f.length ≤ FRAGMENT_MAX))) = true :=
  C5_fragment_roundtrip "hello world".toList

/-- C6: the initial write carries a heading block, then a divider block, then
the first min(98, total) fragments in order, hence never more than 100 blocks;
remaining fragments go in batches of at most 100 blocks each; and the in-order
concatenation of fragments across the initial write and all appends equals the
full fragment sequence. -/
theorem C6_batch_layout (chunks : List Txt) :
    initialBlocks chunks
        = headingBlock :: Block.divider :: (chunks.take 98).map Block.para
      ∧ (initialBlocks chunks).length ≤ 100
      ∧ ((batch100 (chunks.drop 98)).all (fun b => decide (b.length ≤ 100))) = true
      ∧ chunks.take 98 ++ (batch100 (chunks.drop 98)).flatten = chunks := by
  refine ⟨rfl, ?_, ?_, ?_⟩
  · have h : ((chunks.take 98).map Block.para).length ≤ 98 := by
      simp only [List.length_map]
      exact List.length_take_le _ _
    simp only [initialBlocks, List.length_cons]
    omega
  · simp only [List.all_eq_true, decide_eq_true_eq]
    exact batch100_length_le (chunks.drop 98)
  · rw [batch100_flatten]
    exact List.take_append_drop _ _

/-- Outcome of one Gemini generate_content call: the response text, or the
string representation of the raised exception. -/
inductive GemOutcome where
  | ok (text : Txt)
  | err (msg : Txt)

/-- Rate-limit failure signature: "429" in str(e) or "RESOURCE_EXHAUSTED" in
str(e) (lines 209, 244 and 260). -/
def rateLimitSig (msg : Txt) : Bool :=
  containsSub "429".toList msg || containsSub "RESOURCE_EXHAUSTED".toList msg

/-- The transformation output: the summary and transcript dict returned by
transcribe_youtube_url. -/
structure Artifact where
  summary : Txt
  transcript : Txt
deriving DecidableEq

/-- The dict returned on a rate-limit failure after retries (lines 262-265). -/
def rateLimitArtifact : Artifact :=
  ⟨"Video transcription failed due to rate limits. Will retry later.".toList,
   "Error: Rate limit exceeded. Video ID preserved for retry.".toList⟩

/-- The dict returned on any non-rate-limit failure (lines 268-271). -/
def genericArtifact (msg : Txt) : Artifact :=
  ⟨"Video transcription failed.".toList, "Error: ".toList ++ msg⟩

/-- self.max_retries = 3 (line 24). -/
def max_retries : Nat := 3

/-- Result of one transcribe_youtube_url invocation, instrumented with the
number of exponential_backoff_delay sleeps (backoffs), the number of fixed
self.request_delay sleeps (throttles), the number of Gemini calls made
(calls), and how many summary calls returned normally (summaryOks). -/
structure TransResult where
  artifact : Artifact
  backoffs : Nat
  throttles : Nat
  calls : Nat
  summaryOks : Nat
deriving DecidableEq

/-- Adds the cost of one attempt on top of the recursive result. -/
def addCost (r : TransResult) (b th c so : Nat) : TransResult :=
  ⟨r.artifact, r.backoffs + b, r.throttles + th, r.calls + c, r.summaryOks + so⟩

/-- transcribe_youtube_url (lines 183-271). conn maps the index of the Gemini
call (counted across all attempts of this invocation) to its outcome; callIdx
is the index of the next call. The fixed request_delay sleep at lines 189-190
runs only when retry_count == 0; the one at lines 220-221 runs before every
transcript call. A rate-limit error with retry_count < max_retries triggers
one backoff and a recursive attempt (the summary is requested again); an
exhausted or non-rate-limit error is converted by the outer handler into the
corresponding sentinel artifact. -/
def transcribeAux (conn : Nat → GemOutcome) (retry_count callIdx : Nat) : TransResult :=
  let throttle0 : Nat := if retry_count = 0 then 1 else 0
  match conn callIdx with
  | .err m =>
    if rateLimitSig m then
      if h : retry_count < max_retries then
        addCost (transcribeAux conn (retry_count + 1) (callIdx + 1)) 1 throttle0 1 0
      else ⟨rateLimitArtifact, 0, throttle0, 1, 0⟩
    else ⟨genericArtifact m, 0, throttle0, 1, 0⟩
  | .ok s =>
    match conn (callIdx + 1) with
    | .err m =>
      if rateLimitSig m then
        if h : retry_count < max_retries then
          addCost (transcribeAux conn (retry_count + 1) (callIdx + 2)) 1 (throttle0 + 1) 2 1
        else ⟨rateLimitArtifact, 0, throttle0 + 1, 2, 1⟩
      else ⟨genericArtifact m, 0, throttle0 + 1, 2, 1⟩
    | .ok t => ⟨⟨pyStrip s, t⟩, 0, throttle0 + 1, 2, 1⟩
termination_by max_retries - retry_count
decreasing_by
  all_goals omega

/-- A top-level transcribe_youtube_url call starts at retry_count = 0 with no
Gemini calls made yet. -/
def transcribe_youtube_url (conn : Nat → GemOutcome) : TransResult :=
  transcribeAux conn 0 0

theorem transcribeAux_err_retry (conn : Nat → GemOutcome) (rc ci : Nat) (m : Txt)
    (hc : conn ci = .err m) (hrl : rateLimitSig m = true) (hlt : rc < max_retries) :
    transcribeAux conn rc ci
      = addCost (transcribeAux conn (rc + 1) (ci + 1)) 1 (if rc = 0 then 1 else 0) 1 0 := by
  rw [transcribeAux.eq_def, hc]
  simp [hrl, hlt]

theorem transcribeAux_err_exhaust (conn : Nat → GemOutcome) (rc ci : Nat) (m : Txt)
    (hc : conn ci = .err m) (hrl : rateLimitSig m = true) (hge : ¬ rc < max_retries) :
    transcribeAux conn rc ci = ⟨rateLimitArtifact, 0, if rc = 0 then 1 else 0, 1, 0⟩ := by
  rw [transcribeAux.eq_def, hc]
  simp [hrl, hge]

theorem transcribeAux_err_other (conn : Nat → GemOutcome) (rc ci : Nat) (m : Txt)
    (hc : conn ci = .err m) (hrl : rateLimitSig m = false) :
    transcribeAux conn rc ci = ⟨genericArtifact m, 0, if rc = 0 then 1 else 0, 1, 0⟩ := by
  rw [transcribeAux.eq_def, hc]
  simp [hrl]

theorem transcribeAux_ok_err_retry (conn : Nat → GemOutcome) (rc ci : Nat) (s m : Txt)
    (hc : conn ci = .ok s) (hc2 : conn (ci + 1) = .err m)
    (hrl : rateLimitSig m = true) (hlt : rc < max_retries) :
    transcribeAux conn rc ci
      = addCost (transcribeAux conn (rc + 1) (ci + 2)) 1 ((if rc = 0 then 1 else 0) + 1) 2 1 := by
  rw [transcribeAux.eq_def, hc, hc2]
  simp [hrl, hlt]

theorem transcribeAux_ok_err_exhaust (conn : Nat → GemOutcome) (rc ci : Nat) (s m : Txt)
    (hc : conn ci = .ok s) (hc2 : conn (ci + 1) = .err m)
    (hrl : rateLimitSig m = true) (hge : ¬ rc < max_retries) :
    transcribeAux conn rc ci
      = ⟨rateLimitArtifact, 0, (if rc = 0 then 1 else 0) + 1, 2, 1⟩ := by
  rw [transcribeAux.eq_def, hc, hc2]
  simp [hrl, hge]

theorem transcribeAux_ok_err_other (conn : Nat → GemOutcome) (rc ci : Nat) (s m : Txt)
    (hc : conn ci = .ok s) (hc2 : conn (ci + 1) = .err m) (hrl : rateLimitSig m = false) :
    transcribeAux conn rc ci
      = ⟨genericArtifact m, 0, (if rc = 0 then 1 else 0) + 1, 2, 1⟩ := by
  rw [transcribeAux.eq_def, hc, hc2]
  simp [hrl]

theorem transcribeAux_ok_ok (conn : Nat → GemOutcome) (rc ci : Nat) (s t : Txt)
    (hc : conn ci = .ok s) (hc2 : conn (ci + 1) = .ok t) :
    transcribeAux conn rc ci = ⟨⟨pyStrip s, t⟩, 0, (if rc = 0 then 1 else 0) + 1, 2, 1⟩ := by
  rw [transcribeAux.eq_def, hc, hc2]

theorem transcribeAux_throttles (conn : Nat → GemOutcome) (rc ci : Nat) :
    (transcribeAux conn rc ci).throttles
      = (if rc = 0 then 1 else 0) + (transcribeAux conn rc ci).summaryOks := by
  cases hc : conn ci with
  | err m =>
    by_cases hrl : rateLimitSig m = true
    · by_cases hlt : rc < max_retries
      · have ih := transcribeAux_throttles conn (rc + 1) (ci + 1)
        rw [transcribeAux_err_retry conn rc ci m hc hrl hlt]
        simp only [addCost, ih]
        simp
        ring
      · rw [transcribeAux_err_exhaust conn rc ci m hc hrl hlt]
        simp
    · rw [transcribeAux_err_other conn rc ci m hc (by simpa using hrl)]
      simp
  | ok s =>
    cases hc2 : conn (ci + 1) with
    | err m =>
      by_cases hrl : rateLimitSig m = true
      · by_cases hlt : rc < max_retries
        · have ih := transcribeAux_throttles conn (rc + 1) (ci + 2)
          rw [transcribeAux_ok_err_retry conn rc ci s m hc hc2 hrl hlt]
          simp only [addCost, ih]
          simp
          ring
        · rw [transcribeAux_ok_err_exhaust conn rc ci s m hc hc2 hrl hlt]
      · rw [transcribeAux_ok_err_other conn rc ci s m hc hc2 (by simpa using hrl)]
    | ok t =>
      rw [transcribeAux_ok_ok conn rc ci s t hc hc2]
termination_by max_retries - rc
decreasing_by all_goals omega

/-- C2: only the rate-limit failure class is retried: three rate-limit raises
followed by success yield the stripped summary and the transcript after
exactly max_retries = 3 backoff sleeps; any non-rate-limit raise produces the
generic-error artifact immediately with zero backoff sleeps, whether it comes
from the summary or the transcript call; a connector that always raises
rate-limit errors produces the rate-limit sentinel artifact after exactly
max_retries backoff sleeps. -/
theorem C2_retry_classes :
    (∀ (conn : Nat → GemOutcome) (e1 e2 e3 s t : Txt),
        conn 0 = .err e1 → rateLimitSig e1 = true →
        conn 1 = .err e2 → rateLimitSig e2 = true →
        conn 2 = .err e3 → rateLimitSig e3 = true →
        conn 3 = .ok s → conn 4 = .ok t →
        transcribe_youtube_url conn = ⟨⟨pyStrip s, t⟩, max_retries, 2, 5, 1⟩)
    ∧ (∀ (conn : Nat → GemOutcome) (e : Txt),
        conn 0 = .err e → rateLimitSig e = false →
        transcribe_youtube_url conn = ⟨genericArtifact e, 0, 1, 1, 0⟩)
    ∧ (∀ (conn : Nat → GemOutcome) (s e : Txt),
        conn 0 = .ok s → conn 1 = .err e → rateLimitSig e = false →
        transcribe_youtube_url conn = ⟨genericArtifact e, 0, 2, 2, 1⟩)
    ∧ (∀ (conn : Nat → GemOutcome),
        (∀ i, ∃ m, conn i = .err m ∧ rateLimitSig m = true) →
        transcribe_youtube_url conn = ⟨rateLimitArtifact, max_retries, 1, 4, 0⟩) := by
  refine ⟨?_, ?_, ?_, ?_⟩
  · intro conn e1 e2 e3 s t h0 r1 h1 r2 h2 r3 h3 h4
    rw [transcribe_youtube_url,
        transcribeAux_err_retry conn 0 0 e1 h0 r1 (by simp [max_retries]),
        transcribeAux_err_retry conn 1 1 e2 h1 r2 (by simp [max_retries]),
        transcribeAux_err_retry conn 2 2 e3 h2 r3 (by simp [max_retries]),
        transcribeAux_ok_ok conn 3 3 s t h3 h4]
    simp [addCost, max_retries]
  · intro conn e h0 hrl
    rw [transcribe_youtube_url, transcribeAux_err_other conn 0 0 e h0 hrl]
    simp
  · intro conn s e h0 h1 hrl
    rw [transcribe_youtube_url, transcribeAux_ok_err_other conn 0 0 s e h0 h1 hrl]
    simp
  · intro conn h
    obtain ⟨m0, hc0, hr0⟩ := h 0
    obtain ⟨m1, hc1, hr1⟩ := h 1
    obtain ⟨m2, hc2, hr2⟩ := h 2
    obtain ⟨m3, hc3, hr3⟩ := h 3
    rw [transcribe_youtube_url,
        transcribeAux_err_retry conn 0 0 m0 hc0 hr0 (by simp [max_retries]),
        transcribeAux_err_retry conn 1 1 m1 hc1 hr1 (by simp [max_retries]),
        transcribeAux_err_retry conn 2 2 m2 hc2 hr2 (by simp [max_retries]),
        transcribeAux_err_exhaust conn 3 3 m3 hc3 hr3 (by simp [max_retries])]
    simp [addCost, max_retries]

/-- Connector raising rate-limit errors on exactly the first three calls. -/
def c2connA : Nat → GemOutcome := fun i =>
  if i = 0 then .err "Error: 429 quota exceeded".toList
  else if i = 1 then .err "RESOURCE_EXHAUSTED on project".toList
  else if i = 2 then .err "got 429 again".toList
  else if i = 3 then .ok "the summary".toList
  else .ok "the transcript".toList

/-- Connector raising a non-rate-limit error on the first (summary) call. -/
def c2connB : Nat → GemOutcome := fun _ => .err "boom".toList

/-- Connector whose summary call succeeds and whose transcript call raises a
non-rate-limit error. -/
def c2connC : Nat → GemOutcome := fun i =>
  if i = 0 then .ok "the summary".toList else .err "video unavailable".toList

/-- Connector that always raises rate-limit errors. -/
def c2connD : Nat → GemOutcome := fun _ => .err "Error: 429".toList

/-- C2 witness: the three scenarios evaluated on concrete connectors. -/
theorem C2_retry_classes_witness :
    transcribe_youtube_url c2connA
        = ⟨⟨pyStrip "the summary".toList, "the transcript".toList⟩, max_retries, 2, 5, 1⟩
      ∧ transcribe_youtube_url c2connB = ⟨genericArtifact "boom".toList, 0, 1, 1, 0⟩
      ∧ transcribe_youtube_url c2connC
        = ⟨genericArtifact "video unavailable".toList, 0, 2, 2, 1⟩
      ∧ transcribe_youtube_url c2connD = ⟨rateLimitArtifact, max_retries, 1, 4, 0⟩ :=
  ⟨C2_retry_classes.1 c2connA _ _ _ _ _ rfl (by decide) rfl (by decide) rfl (by decide) rfl rfl,
   C2_retry_classes.2.1 c2connB _ rfl (by decide),
   C2_retry_classes.2.2.1 c2connC _ _ rfl rfl (by decide),
   C2_retry_classes.2.2.2 c2connD (fun _ => ⟨_, rfl, by decide⟩)⟩

/-- C9 (amended): the fixed request_delay throttle precedes the summary call
only on the first attempt (a retry attempt's summary call is preceded by the
backoff sleep alone), while one fixed inter-call delay precedes every
transcript call; hence a run performs 1 + (number of successful summary
calls) fixed delays, not one fixed delay per connector call. -/
theorem C9_fixed_throttle (conn : Nat → GemOutcome) :
    (transcribe_youtube_url conn).throttles
      = 1 + (transcribe_youtube_url conn).summaryOks := by
  have h := transcribeAux_throttles conn 0 0
  simpa [transcribe_youtube_url] using h

/-- Connector whose first call hits a rate limit and whose retry succeeds. -/
def connRLthenOk : Nat → GemOutcome := fun i =>
  if i = 0 then .err "Error: 429".toList
  else if i = 1 then .ok "sum".toList
  else .ok "tr".toList

/-- C9 counterexample: a run that makes three connector calls but performs only
two fixed throttle delays, so a fixed delay does not precede every call — the
retry attempt's summary call is preceded only by the backoff sleep. -/
theorem C9_fixed_throttle_counterexample :
    (transcribe_youtube_url connRLthenOk).calls = 3
      ∧ (transcribe_youtube_url connRLthenOk).throttles = 2
      ∧ (transcribe_youtube_url connRLthenOk).throttles
          < (transcribe_youtube_url connRLthenOk).calls := by
  have h : transcribe_youtube_url connRLthenOk
      = addCost (transcribeAux connRLthenOk 1 1) 1 1 1 0 := by
    rw [transcribe_youtube_url]
    have hs := transcribeAux_err_retry connRLthenOk 0 0 "Error: 429".toList rfl
      (by decide) (by simp [max_retries])
    simpa using hs
  have h2 : transcribeAux connRLthenOk 1 1
      = ⟨⟨pyStrip "sum".toList, "tr".toList⟩, 0, 1, 2, 1⟩ := by
    have hs := transcribeAux_ok_ok connRLthenOk 1 1 "sum".toList "tr".toList rfl rfl
    simpa using hs
  rw [h, h2]
  refine ⟨by simp [addCost], by simp [addCost], by simp [addCost]⟩

/-- A discovered video: the dict built at lines 160-168. -/
structure Item where
  video_id : Txt
  title : Txt
  channel : Txt
  published : Txt
deriving DecidableEq

/-- Truncation of the Summary property (lines 285-286 and 363-364). -/
def truncateSummary (s : Txt) : Txt :=
  if s.length > 2000 then s.take 1997 ++ "...".toList else s

/-- One call against the Notion API. -/
inductive NotionCall where
  | createPage (channel title published video_id summary : Txt) (children : List Block)
  | patchProps (pageRef : Txt) (summary : Txt)
  | listChildren (pageRef : Txt)
  | deleteBlock (blockRef : Txt)
  | appendChildren (pageRef : Txt) (children : List Block)
deriving DecidableEq

/-- Tests whether a call is a page creation. -/
def isCreate : NotionCall → Bool
  | .createPage _ _ _ _ _ _ => true
  | _ => false

/-- A block already present on a page, as returned by the children listing
(line 300); blocks of type child_page are not deleted (line 304). -/
structure ExistingBlock where
  blockRef : Txt
  isChildPage : Bool
deriving DecidableEq

/-- add_to_notion (lines 353-422): create the page with heading, divider and
the first 98 fragments as inline children, then append the remaining
fragments in batches of 100. newRef is the page id Notion returns from the
create call. Date parsing (line 359) is external and not modelled. -/
def add_to_notion (channel title published video_id summary transcript : Txt)
    (newRef : Txt) : List NotionCall :=
  let chunks := fragment transcript
  NotionCall.createPage channel title published video_id (truncateSummary summary)
      (initialBlocks chunks)
    :: (batch100 (chunks.drop 98)).map
        (fun b => NotionCall.appendChildren newRef (b.map Block.para))

/-- update_notion_page (lines 273-351): patch the Summary property, list the
existing children, delete every non-child_page block (per-block failures are
ignored at lines 305-308), append heading, divider and the first 98 new
fragments, then append the remaining fragments in batches of 100. -/
def update_notion_page (pageRef summary transcript : Txt)
    (existing : List ExistingBlock) : List NotionCall :=
  let chunks := fragment transcript
  NotionCall.patchProps pageRef (truncateSummary summary)
    :: NotionCall.listChildren pageRef
    :: ((existing.filter (fun b => !b.isChildPage)).map
          (fun b => NotionCall.deleteBlock b.blockRef)
        ++ NotionCall.appendChildren pageRef (initialBlocks chunks)
          :: (batch100 (chunks.drop 98)).map
              (fun b => NotionCall.appendChildren pageRef (b.map Block.para)))

/-- In-memory run state: self.processed_videos_cache (a set) and
self.error_videos (a dict video_id -> page_id). -/
structure RunState where
  processed : Finset Txt
  errors : List (Txt × Txt)
deriving DecidableEq

/-- Result of process_video: its return value (committed), the state after
the call, the Notion calls the taken path issues (when the write raises, the
actually issued calls are a prefix of this list), and whether the
transcribe_youtube_url call at line 441 was reached. -/
structure PVResult where
  committed : Bool
  state : RunState
  calls : List NotionCall
  invokedTransform : Bool
deriving DecidableEq

/-- The rate-limit sentinel tested by process_video at line 444. -/
def rlSentinel : Txt := "Rate limit exceeded".toList

/-- process_video (lines 424-472). tr is the artifact returned by
transcribe_youtube_url (that call itself never raises); writeOk is false when
the Notion write raises, in which case the except at lines 470-472 returns
False and the state updates that follow the write are skipped; existing are
the blocks listed during an update; newRef is the page id a create returns. -/
def process_video (st : RunState) (v : Item) (tr : Artifact) (writeOk : Bool)
    (existing : List ExistingBlock) (newRef : Txt) : PVResult :=
  if v.video_id ∈ st.processed ∧ lookupKey v.video_id st.errors = none then
    ⟨false, st, [], false⟩
  else if containsSub rlSentinel tr.transcript then
    ⟨false, st, [], true⟩
  else
    match lookupKey v.video_id st.errors with
    | some pageId =>
      if writeOk then
        ⟨true, ⟨insert v.video_id st.processed, delKey v.video_id st.errors⟩,
         update_notion_page pageId tr.summary tr.transcript existing, true⟩
      else ⟨false, st, update_notion_page pageId tr.summary tr.transcript existing, true⟩
    | none =>
      if writeOk then
        ⟨true, ⟨insert v.video_id st.processed, st.errors⟩,
         add_to_notion v.channel v.title v.published v.video_id tr.summary tr.transcript
           newRef,
         true⟩
      else ⟨false, st,
        add_to_notion v.channel v.title v.published v.video_id tr.summary tr.transcript
          newRef,
        true⟩

theorem lookupKey_eq_none {β : Type} (k : Txt) (d : List (Txt × β)) (h : k ∉ keys d) :
    lookupKey k d = none := by
  induction d with
  | nil => rfl
  | cons p d ih =>
    simp only [keys, List.map_cons, List.mem_cons] at h
    push_neg at h
    rw [lookupKey, if_neg (fun he => h.1 he.symm)]
    exact ih h.2

theorem lookupKey_delKey_self {β : Type} (k : Txt) (d : List (Txt × β))
    (h : (keys d).Nodup) : lookupKey k (delKey k d) = none := by
  induction d with
  | nil => rfl
  | cons p d ih =>
    simp only [keys, List.map_cons, List.nodup_cons] at h
    rw [delKey]
    by_cases hk : p.1 = k
    · rw [if_pos hk]
      exact lookupKey_eq_none k d (hk ▸ h.1)
    · rw [if_neg hk, lookupKey, if_neg hk]
      exact ih h.2

theorem process_video_skip (st : RunState) (v : Item) (tr : Artifact) (w : Bool)
    (ex : List ExistingBlock) (r : Txt)
    (h1 : v.video_id ∈ st.processed) (h2 : lookupKey v.video_id st.errors = none) :
    process_video st v tr w ex r = ⟨false, st, [], false⟩ := by
  simp [process_video, h1, h2]

theorem process_video_processed_eq (st : RunState) (v : Item) (tr : Artifact) (w : Bool)
    (ex : List ExistingBlock) (r : Txt) :
    (process_video st v tr w ex r).state.processed
      = if (process_video st v tr w ex r).committed = true
        then insert v.video_id st.processed else st.processed := by
  simp only [process_video]
  by_cases hskip : v.video_id ∈ st.processed ∧ lookupKey v.video_id st.errors = none
  · simp [hskip]
  · simp only [if_neg hskip]
    by_cases hrl : containsSub rlSentinel tr.transcript = true
    · simp [hrl]
    · simp only [hrl]
      cases hlk : lookupKey v.video_id st.errors with
      | some pid => cases w <;> simp
      | none => cases w <;> simp

theorem process_video_write_fail (st : RunState) (v : Item) (tr : Artifact)
    (ex : List ExistingBlock) (r : Txt) :
    (process_video st v tr false ex r).committed = false
      ∧ (process_video st v tr false ex r).state = st := by
  simp only [process_video]
  by_cases hskip : v.video_id ∈ st.processed ∧ lookupKey v.video_id st.errors = none
  · simp [hskip]
  · simp only [if_neg hskip]
    by_cases hrl : containsSub rlSentinel tr.transcript = true
    · simp [hrl]
    · simp only [hrl]
      cases hlk : lookupKey v.video_id st.errors with
      | some pid => simp
      | none => simp

theorem process_video_commit_post (st : RunState) (v : Item) (tr : Artifact) (w : Bool)
    (ex : List ExistingBlock) (r : Txt) (hnd : (keys st.errors).Nodup)
    (hcm : (process_video st v tr w ex r).committed = true) :
    v.video_id ∈ (process_video st v tr w ex r).state.processed
      ∧ lookupKey v.video_id (process_video st v tr w ex r).state.errors = none := by
  revert hcm
  simp only [process_video]
  by_cases hskip : v.video_id ∈ st.processed ∧ lookupKey v.video_id st.errors = none
  · simp [hskip]
  · simp only [if_neg hskip]
    by_cases hrl : containsSub rlSentinel tr.transcript = true
    · simp [hrl]
    · simp only [hrl]
      cases hlk : lookupKey v.video_id st.errors with
      | some pid =>
        cases w with
        | false => simp
        | true =>
          intro _
          exact ⟨Finset.mem_insert_self _ _, lookupKey_delKey_self _ _ hnd⟩
      | none =>
        cases w with
        | false => simp
        | true =>
          intro _
          exact ⟨Finset.mem_insert_self _ _, hlk⟩

theorem process_video_rate_limit (st : RunState) (v : Item) (tr : Artifact) (w : Bool)
    (ex : List ExistingBlock) (r : Txt)
    (h : containsSub rlSentinel tr.transcript = true) :
    (process_video st v tr w ex r).committed = false
      ∧ (process_video st v tr w ex r).calls = []
      ∧ (process_video st v tr w ex r).state = st := by
  simp only [process_video]
  by_cases hskip : v.video_id ∈ st.processed ∧ lookupKey v.video_id st.errors = none
  · simp [hskip]
  · simp [if_neg hskip, h]

/-- C3: for every work unit whose artifact carries the rate-limit sentinel
("Rate limit exceeded" in the transcript text), process_video returns False,
issues no Notion call at all (so neither a create nor an update), and leaves
the processed set and the error map unchanged. -/
theorem C3_rate_limit_not_persisted (st : RunState) (v : Item) (tr : Artifact)
    (w : Bool) (ex : List ExistingBlock) (r : Txt)
    (h : containsSub rlSentinel tr.transcript = true) :
    (process_video st v tr w ex r).committed = false
      ∧ (process_video st v tr w ex r).calls = []
      ∧ (process_video st v tr w ex r).state.processed = st.processed
      ∧ (process_video st v tr w ex r).state.errors = st.errors := by
  obtain ⟨h1, h2, h3⟩ := process_video_rate_limit st v tr w ex r h
  exact ⟨h1, h2, by rw [h3], by rw [h3]⟩

/-- Concrete state and item for the C3 witness. -/
def c3st : RunState := ⟨∅, [("v9".toList, "p9".toList)]⟩

def c3item : Item := ⟨"v9".toList, "Title9".toList, "Chan".toList, "2025-01-01".toList⟩

/-- C3 witness: the rate-limit artifact of the transform driver is never
persisted. -/
theorem C3_rate_limit_not_persisted_witness :
    (process_video c3st c3item rateLimitArtifact true [] "r".toList).committed = false
      ∧ (process_video c3st c3item rateLimitArtifact true [] "r".toList).calls = []
      ∧ (process_video c3st c3item rateLimitArtifact true [] "r".toList).state.processed
          = c3st.processed
      ∧ (process_video c3st c3item rateLimitArtifact true [] "r".toList).state.errors
          = c3st.errors :=
  C3_rate_limit_not_persisted c3st c3item rateLimitArtifact true [] "r".toList (by decide)

/-- C7 (amended): the processed set gains the identifier exactly when the
work unit commits; it never gains it on a rate-limit skip or when the Notion
write raises; an identifier that is in the processed set and absent from the
error map is skipped without reaching the transformation connector; and once
a work unit commits, any later process_video call for the same identifier in
the run returns False without reaching the connector. (A non-rate-limit
transform failure is persisted as a failure record, so it does add the
identifier to the processed set — see the counterexample.) -/
theorem C7_processed_set_gain (st : RunState) (v v2 : Item) (tr tr2 : Artifact)
    (w w2 : Bool) (ex ex2 : List ExistingBlock) (r r2 : Txt) :
    ((process_video st v tr w ex r).state.processed
        = if (process_video st v tr w ex r).committed = true
          then insert v.video_id st.processed else st.processed)
      ∧ (containsSub rlSentinel tr.transcript = true →
          (process_video st v tr w ex r).committed = false
            ∧ (process_video st v tr w ex r).state = st)
      ∧ ((process_video st v tr false ex r).committed = false
          ∧ (process_video st v tr false ex r).state = st)
      ∧ (v.video_id ∈ st.processed → lookupKey v.video_id st.errors = none →
          process_video st v tr w ex r = ⟨false, st, [], false⟩)
      ∧ ((keys st.errors).Nodup → (process_video st v tr w ex r).committed = true →
          v2.video_id = v.video_id →
          process_video (process_video st v tr w ex r).state v2 tr2 w2 ex2 r2
            = ⟨false, (process_video st v tr w ex r).state, [], false⟩) := by
  refine ⟨process_video_processed_eq st v tr w ex r, ?_, ?_, ?_, ?_⟩
  · intro h
    obtain ⟨h1, _, h3⟩ := process_video_rate_limit st v tr w ex r h
    exact ⟨h1, h3⟩
  · exact process_video_write_fail st v tr ex r
  · exact process_video_skip st v tr w ex r
  · intro hnd hcm hid
    obtain ⟨hmem, hnone⟩ := process_video_commit_post st v tr w ex r hnd hcm
    exact process_video_skip _ v2 tr2 w2 ex2 r2 (hid ▸ hmem) (hid ▸ hnone)

/-- Concrete data for the C7 witness and counterexample. -/
def c7st : RunState := ⟨∅, [("e1".toList, "p1".toList)]⟩

def c7item : Item := ⟨"e1".toList, "T1".toList, "Chan".toList, "2025-02-02".toList⟩

def c7okArtifact : Artifact := ⟨"a fine summary".toList, "a fine transcript".toList⟩

/-- C7 witness: after a committed retry of e1, a second process_video call
for e1 in the same run is a no-op that does not reach the connector. -/
theorem C7_processed_set_gain_witness :
    process_video (process_video c7st c7item c7okArtifact true [] "r".toList).state
        c7item c7okArtifact true [] "r".toList
      = ⟨false, (process_video c7st c7item c7okArtifact true [] "r".toList).state,
         [], false⟩ :=
  (C7_processed_set_gain c7st c7item c7item c7okArtifact c7okArtifact true true [] []
    "r".toList "r".toList).2.2.2.2 (by decide) (by decide) rfl

/-- C7 counterexample: a non-rate-limit transform failure is written to the
store, the write commits, and the processed set does gain the identifier —
so "never on a transform failure" does not hold as stated. -/
theorem C7_processed_set_gain_counterexample :
    (genericArtifact "boom".toList).summary = "Video transcription failed.".toList
      ∧ (process_video ⟨∅, []⟩ c7item (genericArtifact "boom".toList) true []
          "r".toList).committed = true
      ∧ c7item.video_id
          ∈ (process_video ⟨∅, []⟩ c7item (genericArtifact "boom".toList) true []
              "r".toList).state.processed := by
  refine ⟨rfl, ?_, ?_⟩ <;> decide

theorem update_notion_page_no_create (p s t : Txt) (ex : List ExistingBlock) :
    ((update_notion_page p s t ex).any isCreate) = false := by
  simp [update_notion_page, isCreate, List.any_append, List.any_map, Function.comp]
  intro x x1 hx1 hcp heq
  subst heq
  rfl

/-- C8: process_video issues a page-creation call only for an identifier that
is absent from both the processed set and the error map; for an identifier
present in the error map it either skips (rate limit) or updates the existing
record in place via update_notion_page, whose call sequence never contains a
create. -/
theorem C8_create_only_fresh (st : RunState) (v : Item) (tr : Artifact) (w : Bool)
    (ex : List ExistingBlock) (r : Txt) :
    ((process_video st v tr w ex r).calls.any isCreate = true →
        v.video_id ∉ st.processed ∧ lookupKey v.video_id st.errors = none)
      ∧ (∀ pid, lookupKey v.video_id st.errors = some pid →
          (process_video st v tr w ex r).calls = []
            ∨ (process_video st v tr w ex r).calls
                = update_notion_page pid tr.summary tr.transcript ex)
      ∧ (∀ p s t e2, ((update_notion_page p s t e2).any isCreate) = false) := by
  refine ⟨?_, ?_, fun p s t e2 => update_notion_page_no_create p s t e2⟩
  · simp only [process_video]
    by_cases hskip : v.video_id ∈ st.processed ∧ lookupKey v.video_id st.errors = none
    · simp [hskip]
    · simp only [if_neg hskip]
      by_cases hrl : containsSub rlSentinel tr.transcript = true
      · simp [hrl]
      · simp only [hrl]
        cases hlk : lookupKey v.video_id st.errors with
        | some pid => cases w <;> simp [update_notion_page_no_create]
        | none =>
          cases w with
          | true => exact fun _ => ⟨fun hmem => hskip ⟨hmem, hlk⟩, rfl⟩
          | false => exact fun _ => ⟨fun hmem => hskip ⟨hmem, hlk⟩, rfl⟩
  · intro pid hpid
    simp only [process_video]
    by_cases hskip : v.video_id ∈ st.processed ∧ lookupKey v.video_id st.errors = none
    · rw [hskip.2] at hpid
      exact Option.noConfusion hpid
    · simp only [if_neg hskip]
      by_cases hrl : containsSub rlSentinel tr.transcript = true
      · simp [hrl]
      · simp only [hrl]
        rw [hpid]
        cases w <;> exact Or.inr rfl

/-- C8 witness: for the identifier e1 present in the error map, the taken
path updates the existing page in place, and an update call sequence never
creates a page. -/
theorem C8_create_only_fresh_witness :
    ((process_video c7st c7item c7okArtifact true [] "r".toList).calls = []
        ∨ (process_video c7st c7item c7okArtifact true [] "r".toList).calls
            = update_notion_page "p1".toList c7okArtifact.summary c7okArtifact.transcript [])
      ∧ ((update_notion_page "p".toList "s".toList "t".toList []).any isCreate) = false :=
  ⟨(C8_create_only_fresh c7st c7item c7okArtifact true [] "r".toList).2.1 "p1".toList
      (by decide),
   (C8_create_only_fresh c7st c7item c7okArtifact true [] "r".toList).2.2 "p".toList
      "s".toList "t".toList []⟩

/-- A Notion property as seen by the reconciler: absent or empty rich_text
(falsy at lines 91 and 97), a value, or a structure whose inspection raises
(caught by the per-record try at lines 89-114). -/
inductive PropField where
  | missing
  | corrupt
  | val (t : Txt)
deriving DecidableEq

/-- One record returned by the database query: the Video ID property, the
Summary property, and the page id. -/
structure NPage where
  videoIdField : PropField
  summaryField : PropField
  pageId : Txt
deriving DecidableEq

/-- The fixed failure markers (lines 101-108). -/
def error_indicators : List Txt :=
  ["Video transcription failed".toList, "Rate limit exceeded".toList,
   "Error: 429".toList, "RESOURCE_EXHAUSTED".toList, "Error:".toList,
   "transcription failed".toList]

/-- Case-insensitive marker test (line 110). -/
def hasErrorIndicator (summary : Txt) : Bool :=
  error_indicators.any (fun ind => containsSub (lowerTxt ind) (lowerTxt summary))

/-- Reconciler accumulator: all_video_ids and error_videos (lines 74-75). -/
structure ReconcileState where
  ids : Finset Txt
  failed : List (Txt × Txt)
deriving DecidableEq

/-- Processing of one record (lines 88-114): extract the Video ID (skipping
the record if the property is missing, empty, or raises), add it to the id
set, then, if the Summary is present and readable and contains a failure
marker, record video_id -> page id in the error dict. -/
def stepPage (st : ReconcileState) (p : NPage) : ReconcileState :=
  match p.videoIdField with
  | .missing => st
  | .corrupt => st
  | .val vid =>
    match p.summaryField with
    | .missing => ⟨insert vid st.ids, st.failed⟩
    | .corrupt => ⟨insert vid st.ids, st.failed⟩
    | .val s =>
      if hasErrorIndicator s then ⟨insert vid st.ids, dictInsert vid p.pageId st.failed⟩
      else ⟨insert vid st.ids, st.failed⟩

/-- The scan over one flat record sequence. -/
def reconcileRecords (recs : List NPage) : ReconcileState :=
  recs.foldl stepPage ⟨∅, []⟩

/-- load_processed_videos_from_notion (lines 63-121): the paginated while
loop, each iteration folding one page of results into the accumulator. -/
def load_processed_videos_from_notion (pages : List (List NPage)) : ReconcileState :=
  pages.foldl (fun st pg => pg.foldl stepPage st) ⟨∅, []⟩

/-- The identifier an error record contributes to the failed dict, if any. -/
def errMatch (p : NPage) : Option Txt :=
  match p.videoIdField, p.summaryField with
  | .val v, .val s => if hasErrorIndicator s then some v else none
  | _, _ => none

theorem stepPage_skip (st : ReconcileState) (p : NPage)
    (h : p.videoIdField = PropField.missing ∨ p.videoIdField = PropField.corrupt) :
    stepPage st p = st := by
  rcases h with h | h <;> simp [stepPage, h]

theorem stepPage_ids_val (st : ReconcileState) (p : NPage) (vid : Txt)
    (h : p.videoIdField = PropField.val vid) :
    (stepPage st p).ids = insert vid st.ids := by
  cases hs : p.summaryField <;> simp only [stepPage, h, hs]
  split <;> rfl

theorem stepPage_failed_eq (st : ReconcileState) (p : NPage) :
    (stepPage st p).failed
      = match errMatch p with
        | some v => dictInsert v p.pageId st.failed
        | none => st.failed := by
  cases hv : p.videoIdField <;> cases hs : p.summaryField <;>
    simp only [stepPage, errMatch, hv, hs]
  split <;> rfl

theorem pages_foldl_flatten (pages : List (List NPage)) :
    ∀ st : ReconcileState,
      pages.foldl (fun st pg => pg.foldl stepPage st) st = pages.flatten.foldl stepPage st := by
  induction pages with
  | nil => intro st; rfl
  | cons pg pages ih =>
    intro st
    simp only [List.foldl_cons, List.flatten_cons, List.foldl_append]
    exact ih (pg.foldl stepPage st)

theorem keys_dictInsert_mem {β : Type} (k k' : Txt) (v : β) (d : List (Txt × β)) :
    k ∈ keys (dictInsert k' v d) ↔ k = k' ∨ k ∈ keys d := by
  induction d with
  | nil => simp [dictInsert, keys]
  | cons p d ih =>
    by_cases hp : p.1 = k'
    · simp only [dictInsert, if_pos hp, keys, List.map_cons, List.mem_cons]
      rw [hp]
      tauto
    · simp only [dictInsert, if_neg hp, keys, List.map_cons, List.mem_cons]
      rw [show (keys (dictInsert k' v d) : List Txt) = (dictInsert k' v d).map Prod.fst from rfl]
      at ih
      rw [show (keys d : List Txt) = d.map Prod.fst from rfl] at ih
      tauto

theorem lookupKey_dictInsert_self {β : Type} (k : Txt) (v : β) (d : List (Txt × β)) :
    lookupKey k (dictInsert k v d) = some v := by
  induction d with
  | nil => simp [dictInsert, lookupKey]
  | cons p d ih =>
    by_cases hp : p.1 = k
    · simp [dictInsert, hp, lookupKey]
    · simp [dictInsert, hp, lookupKey, ih]

theorem lookupKey_dictInsert_ne {β : Type} (k k' : Txt) (v : β) (d : List (Txt × β))
    (h : k ≠ k') : lookupKey k (dictInsert k' v d) = lookupKey k d := by
  induction d with
  | nil =>
    simp only [dictInsert, lookupKey]
    rw [if_neg (fun he => h he.symm)]
  | cons p d ih =>
    by_cases hp : p.1 = k'
    · simp only [dictInsert, if_pos hp, lookupKey]
      rw [if_neg (fun he : p.1 = k => h (he.symm.trans hp))]
      rw [if_neg (fun he : p.1 = k => h (he.symm.trans hp))]
    · simp only [dictInsert, if_neg hp, lookupKey]
      by_cases hk : p.1 = k
      · simp [hk]
      · simp [hk, ih]

theorem errMatch_eq_some (p : NPage) (vid : Txt) :
    errMatch p = some vid
      ↔ p.videoIdField = PropField.val vid
        ∧ ∃ s, p.summaryField = PropField.val s ∧ hasErrorIndicator s = true := by
  cases hv : p.videoIdField with
  | missing => cases hs : p.summaryField <;> simp [errMatch, hv, hs]
  | corrupt => cases hs : p.summaryField <;> simp [errMatch, hv, hs]
  | val v =>
    cases hs : p.summaryField with
    | missing => simp [errMatch, hv, hs]
    | corrupt => simp [errMatch, hv, hs]
    | val s =>
      by_cases he : hasErrorIndicator s = true <;> simp [errMatch, hv, hs, he]

theorem foldl_ids_mem (recs : List NPage) :
    ∀ (st : ReconcileState) (vid : Txt),
      vid ∈ (recs.foldl stepPage st).ids
        ↔ vid ∈ st.ids ∨ ∃ p ∈ recs, p.videoIdField = PropField.val vid := by
  induction recs with
  | nil => intro st vid; simp
  | cons q recs ih =>
    intro st vid
    simp only [List.foldl_cons]
    rw [ih]
    cases hq : q.videoIdField with
    | missing =>
      rw [stepPage_skip st q (Or.inl hq)]
      simp [hq]
    | corrupt =>
      rw [stepPage_skip st q (Or.inr hq)]
      simp [hq]
    | val v =>
      rw [stepPage_ids_val st q v hq]
      simp only [Finset.mem_insert, List.mem_cons, hq]
      constructor
      · rintro (⟨h | h⟩ | h)
        · exact Or.inr ⟨q, Or.inl rfl, by rw [hq, h]⟩
        · exact Or.inl h
        · rcases h with ⟨p, hp, hpv⟩
          exact Or.inr ⟨p, Or.inr hp, hpv⟩
      · rintro (h | ⟨p, hp | hp, hpv⟩)
        · exact Or.inl (Or.inr h)
        · subst hp
          rw [hq] at hpv
          cases hpv
          exact Or.inl (Or.inl rfl)
        · exact Or.inr ⟨p, hp, hpv⟩

theorem foldl_failed_mem (recs : List NPage) :
    ∀ (st : ReconcileState) (vid : Txt),
      vid ∈ keys (recs.foldl stepPage st).failed
        ↔ vid ∈ keys st.failed ∨ ∃ p ∈ recs, errMatch p = some vid := by
  induction recs with
  | nil => intro st vid; simp
  | cons q recs ih =>
    intro st vid
    simp only [List.foldl_cons]
    rw [ih]
    cases hm : errMatch q with
    | none =>
      have hf : (stepPage st q).failed = st.failed := by
        rw [stepPage_failed_eq, hm]
      rw [hf]
      simp [hm]
    | some v =>
      have hf : (stepPage st q).failed = dictInsert v q.pageId st.failed := by
        rw [stepPage_failed_eq, hm]
      rw [hf, keys_dictInsert_mem]
      simp only [List.mem_cons]
      constructor
      · rintro (⟨h | h⟩ | h)
        · exact Or.inr ⟨q, Or.inl rfl, by rw [hm, h]⟩
        · exact Or.inl h
        · rcases h with ⟨p, hp, hpv⟩
          exact Or.inr ⟨p, Or.inr hp, hpv⟩
      · rintro (h | ⟨p, hp | hp, hpv⟩)
        · exact Or.inl (Or.inr h)
        · subst hp
          rw [hm] at hpv
          cases hpv
          exact Or.inl (Or.inl rfl)
        · exact Or.inr ⟨p, hp, hpv⟩

theorem foldl_failed_lookup_stable (recs : List NPage) :
    ∀ (st : ReconcileState) (vid pid : Txt),
      (∀ q ∈ recs, errMatch q = some vid → q.pageId = pid) →
      lookupKey vid st.failed = some pid →
      lookupKey vid (recs.foldl stepPage st).failed = some pid := by
  induction recs with
  | nil => intro st vid pid _ h; exact h
  | cons q recs ih =>
    intro st vid pid hq h
    simp only [List.foldl_cons]
    refine ih (stepPage st q) vid pid (fun q2 hq2 => hq q2 (List.mem_cons_of_mem q hq2)) ?_
    cases hm : errMatch q with
    | none =>
      rw [stepPage_failed_eq, hm]
      exact h
    | some v =>
      rw [stepPage_failed_eq, hm]
      by_cases hv : vid = v
      · subst hv
        rw [lookupKey_dictInsert_self]
        rw [hq q (List.mem_cons_self q recs) hm]
      · rw [lookupKey_dictInsert_ne vid v q.pageId st.failed hv]
        exact h

/-- C4: the reconciler's output is a function of the flat record sequence, so
it is identical for every pagination split; its id set is exactly the set of
extractable identifiers; the keys of its failed dict are exactly the
identifiers whose readable status text contains a failure marker
case-insensitively; the failed entry of an identifier carried by a single
record is that record's page id; and a record whose identifier cannot be
extracted is skipped without affecting the rest of the scan. -/
theorem C4_reconcile_pagination (pages qs : List (List NPage)) (vid : Txt) :
    (load_processed_videos_from_notion pages = reconcileRecords pages.flatten)
      ∧ (pages.flatten = qs.flatten →
          load_processed_videos_from_notion pages = load_processed_videos_from_notion qs)
      ∧ (vid ∈ (reconcileRecords pages.flatten).ids
          ↔ ∃ p ∈ pages.flatten, p.videoIdField = PropField.val vid)
      ∧ (vid ∈ keys (reconcileRecords pages.flatten).failed
          ↔ ∃ p ∈ pages.flatten,
              p.videoIdField = PropField.val vid
                ∧ ∃ s, p.summaryField = PropField.val s ∧ hasErrorIndicator s = true)
      ∧ (∀ p ∈ pages.flatten, ∀ s : Txt,
          p.videoIdField = PropField.val vid → p.summaryField = PropField.val s →
          hasErrorIndicator s = true →
          (∀ q ∈ pages.flatten, q.videoIdField = PropField.val vid → q = p) →
          lookupKey vid (reconcileRecords pages.flatten).failed = some p.pageId)
      ∧ (∀ (xs ys : List NPage) (p : NPage),
          p.videoIdField = PropField.missing ∨ p.videoIdField = PropField.corrupt →
          reconcileRecords (xs ++ p :: ys) = reconcileRecords (xs ++ ys)) := by
  have h1 : load_processed_videos_from_notion pages = reconcileRecords pages.flatten :=
    pages_foldl_flatten pages ⟨∅, []⟩
  refine ⟨h1, ?_, ?_, ?_, ?_, ?_⟩
  · intro h
    rw [h1, h]
    exact (pages_foldl_flatten qs ⟨∅, []⟩).symm
  · have h3 := foldl_ids_mem pages.flatten ⟨∅, []⟩ vid
    simpa using h3
  · have h4 := foldl_failed_mem pages.flatten ⟨∅, []⟩ vid
    simp only [keys, List.map_nil, List.not_mem_nil, false_or] at h4
    exact h4.trans
      (exists_congr fun p => and_congr_right fun _ => errMatch_eq_some p vid)
  · intro p hp s hpv hps he huniq
    have hm : errMatch p = some vid := (errMatch_eq_some p vid).mpr ⟨hpv, s, hps, he⟩
    obtain ⟨xs, ys, hsplit⟩ := List.mem_iff_append.mp hp
    show lookupKey vid (pages.flatten.foldl stepPage ⟨∅, []⟩).failed = some p.pageId
    rw [hsplit, List.foldl_append, List.foldl_cons]
    refine foldl_failed_lookup_stable ys _ vid p.pageId ?_ ?_
    · intro q hqy hqm
      have hqv : q.videoIdField = PropField.val vid := ((errMatch_eq_some q vid).mp hqm).1
      have hqp : q = p := by
        refine huniq q ?_ hqv
        rw [hsplit]
        exact List.mem_append.mpr (Or.inr (List.mem_cons_of_mem p hqy))
      rw [hqp]
    · rw [stepPage_failed_eq, hm]
      exact lookupKey_dictInsert_self vid p.pageId _
  · intro xs ys p h
    show (xs ++ p :: ys).foldl stepPage ⟨∅, []⟩ = (xs ++ ys).foldl stepPage ⟨∅, []⟩
    rw [List.foldl_append, List.foldl_append, List.foldl_cons, stepPage_skip _ p h]

/-- Concrete records for the C4 witness. -/
def c4recA : NPage :=
  ⟨PropField.val "a1".toList, PropField.val "All good".toList, "pa".toList⟩

def c4recB : NPage :=
  ⟨PropField.val "b2".toList, PropField.val "Error: 429 rate limited".toList, "pb".toList⟩

def c4recC : NPage := ⟨PropField.corrupt, PropField.missing, "pc".toList⟩

/-- C4 witness: two pagination splits of the same records reconcile equally,
and the failing record's identifier maps to its page id. -/
theorem C4_reconcile_pagination_witness :
    load_processed_videos_from_notion [[c4recA], [c4recB, c4recC]]
        = load_processed_videos_from_notion [[c4recA, c4recB, c4recC]]
      ∧ lookupKey "b2".toList
          (reconcileRecords ([[c4recA], [c4recB, c4recC]] : List (List NPage)).flatten).failed
          = some "pb".toList :=
  ⟨(C4_reconcile_pagination [[c4recA], [c4recB, c4recC]] [[c4recA, c4recB, c4recC]]
      "x".toList).2.1 (by decide),
   (C4_reconcile_pagination [[c4recA], [c4recB, c4recC]] [] "b2".toList).2.2.2.2.1
      c4recB (by decide) "Error: 429 rate limited".toList rfl rfl (by decide) (by decide)⟩

/-- C10: a record with an extractable identifier but a missing, empty or
unreadable Summary contributes its identifier to the processed set and
nothing to the failure map; if every record carrying an identifier lacks a
readable status, that identifier is not in the failure map; and a record
whose inspection raises is skipped without affecting the rest of the scan. -/
theorem C10_no_status_means_success (st : ReconcileState) (vid pid : Txt) :
    (stepPage st ⟨PropField.val vid, PropField.missing, pid⟩
        = ⟨insert vid st.ids, st.failed⟩)
      ∧ (stepPage st ⟨PropField.val vid, PropField.corrupt, pid⟩
          = ⟨insert vid st.ids, st.failed⟩)
      ∧ (∀ recs : List NPage,
          (∀ p ∈ recs, p.videoIdField = PropField.val vid →
            p.summaryField = PropField.missing ∨ p.summaryField = PropField.corrupt) →
          vid ∉ keys (reconcileRecords recs).failed)
      ∧ (∀ (xs ys : List NPage) (p : NPage), p.videoIdField = PropField.corrupt →
          reconcileRecords (xs ++ p :: ys) = reconcileRecords (xs ++ ys)) := by
  refine ⟨rfl, rfl, ?_, ?_⟩
  · intro recs hall hmem
    have h := (foldl_failed_mem recs ⟨∅, []⟩ vid).mp hmem
    simp only [keys, List.map_nil, List.not_mem_nil, false_or] at h
    obtain ⟨p, hp, hm⟩ := h
    obtain ⟨hpv, s, hps, _⟩ := (errMatch_eq_some p vid).mp hm
    rcases hall p hp hpv with hc | hc <;> rw [hps] at hc <;> exact PropField.noConfusion hc
  · intro xs ys p h
    show (xs ++ p :: ys).foldl stepPage ⟨∅, []⟩ = (xs ++ ys).foldl stepPage ⟨∅, []⟩
    rw [List.foldl_append, List.foldl_append, List.foldl_cons,
        stepPage_skip _ p (Or.inr h)]

/-- C10 witness: a record whose Summary is empty lands in the processed set
only, and the scan of a list containing such records has an empty failure
map. -/
theorem C10_no_status_means_success_witness :
    stepPage ⟨∅, []⟩ ⟨PropField.val "a1".toList, PropField.missing, "pa".toList⟩
        = ⟨insert "a1".toList (∅ : Finset Txt), []⟩
      ∧ "a1".toList ∉ keys
          (reconcileRecords
            [⟨PropField.val "a1".toList, PropField.missing, "pa".toList⟩,
             ⟨PropField.corrupt, PropField.corrupt, "pc".toList⟩]).failed :=
  ⟨(C10_no_status_means_success ⟨∅, []⟩ "a1".toList "pa".toList).1,
   (C10_no_status_means_success ⟨∅, []⟩ "a1".toList "pa".toList).2.2.1
      [⟨PropField.val "a1".toList, PropField.missing, "pa".toList⟩,
       ⟨PropField.corrupt, PropField.corrupt, "pc".toList⟩] (by decide)⟩

/-- The item synthesised for a retry (lines 491-496); the datetime.now
timestamp is modelled as an opaque constant. -/
def placeholderItem (vid : Txt) : Item :=
  ⟨vid, "Video ".toList ++ vid ++ " (retry)".toList, "Unknown".toList,
   "run-start-time".toList⟩

/-- One scheduled unit of work: the item and the is_retry flag passed to
process_video (lines 498 and 526). -/
structure WorkUnit where
  item : Item
  is_retry : Bool
deriving DecidableEq

/-- The dict comprehension at line 514 followed by .values(): CPython dict
semantics — the first occurrence of a key fixes its position, and later
occurrences overwrite the value. -/
def pythonDedup (l : List Item) : List Item :=
  (l.foldl (fun d v => dictInsert v.video_id v d) []).map Prod.snd

/-- The fold building the dict of line 514, from an arbitrary starting dict. -/
def dictFold (d : List (Txt × Item)) (l : List Item) : List (Txt × Item) :=
  l.foldl (fun d v => dictInsert v.video_id v d) d

/-- The work of one run (lines 486-515): every entry of the error dict first,
as a retry unit with placeholder metadata, then every discovered item that
survives the de-duplication of line 514 and the unprocessed filter of line
515; processed and errs are the set and dict as the run reads them. -/
def scheduledWork (errs : List (Txt × Txt)) (processed : Finset Txt)
    (discovered : List Item) : List WorkUnit :=
  errs.map (fun p => ⟨placeholderItem p.1, true⟩)
    ++ ((pythonDedup discovered).filter
        (fun v => !(decide (v.video_id ∈ processed))
          || decide (v.video_id ∈ keys errs))).map (fun v => ⟨v, false⟩)

/-- The last element of l whose video_id is k, or dflt if there is none. -/
def lastWithDefault (k : Txt) (l : List Item) (dflt : Item) : Item :=
  l.foldl (fun acc x => if x.video_id = k then x else acc) dflt

/-- De-duplication stated the way the spec reads it: one item per identifier,
positions following first occurrences, each position holding the last
occurrence of its identifier. -/
def dedupSpec : List Item → List Item
  | [] => []
  | v :: rest =>
    lastWithDefault v.video_id rest v
      :: dedupSpec (rest.filter (fun x => !(decide (x.video_id = v.video_id))))
termination_by l => l.length
decreasing_by
  simp only [List.length_cons]
  exact Nat.lt_succ_of_le (List.length_filter_le _ _)

/-- The identifiers of l at their first occurrences, in order. -/
def firstIds : List Item → List Txt
  | [] => []
  | v :: rest =>
    v.video_id :: firstIds (rest.filter (fun x => !(decide (x.video_id = v.video_id))))
termination_by l => l.length
decreasing_by
  simp only [List.length_cons]
  exact Nat.lt_succ_of_le (List.length_filter_le _ _)

theorem lastWithDefault_cons (k : Txt) (x : Item) (l : List Item) (w : Item) :
    lastWithDefault k (x :: l) w
      = lastWithDefault k l (if x.video_id = k then x else w) := rfl

theorem lastWithDefault_id (k : Txt) (l : List Item) (w : Item) (h : w.video_id = k) :
    (lastWithDefault k l w).video_id = k := by
  induction l generalizing w with
  | nil => exact h
  | cons x l ih =>
    rw [lastWithDefault_cons]
    by_cases hx : x.video_id = k
    · exact ih _ (by rw [if_pos hx]; exact hx)
    · exact ih _ (by rw [if_neg hx]; exact h)

theorem lastWithDefault_mem (k : Txt) (l : List Item) (w : Item) :
    lastWithDefault k l w = w ∨ lastWithDefault k l w ∈ l := by
  induction l generalizing w with
  | nil => exact Or.inl rfl
  | cons x l ih =>
    rw [lastWithDefault_cons]
    rcases ih (if x.video_id = k then x else w) with h | h
    · rw [h]
      by_cases hx : x.video_id = k
      · rw [if_pos hx]
        exact Or.inr (List.mem_cons_self x l)
      · rw [if_neg hx]
        exact Or.inl rfl
    · exact Or.inr (List.mem_cons_of_mem x h)

theorem lastWithDefault_filter (k : Txt) (l : List Item) (p : Item → Bool)
    (hp : ∀ x, x.video_id = k → p x = true) :
    ∀ w : Item, lastWithDefault k (l.filter p) w = lastWithDefault k l w := by
  induction l with
  | nil => intro w; rfl
  | cons x l ih =>
    intro w
    by_cases hx : p x = true
    · rw [show (x :: l).filter p = x :: l.filter p by simp [List.filter_cons, hx],
          lastWithDefault_cons, lastWithDefault_cons]
      exact ih _
    · rw [show (x :: l).filter p = l.filter p by simp [List.filter_cons, hx],
          lastWithDefault_cons]
      have hxk : ¬ x.video_id = k := fun he => hx (hp x he)
      rw [if_neg hxk]
      exact ih w

theorem map_update_of_not_mem {β : Type} (k : Txt) (v : β) (d : List (Txt × β))
    (h : k ∉ keys d) :
    d.map (fun p => (p.1, if p.1 = k then v else p.2)) = d := by
  induction d with
  | nil => rfl
  | cons p d ih =>
    simp only [keys, List.map_cons, List.mem_cons] at h
    push_neg at h
    simp only [List.map_cons]
    rw [if_neg (fun he => h.1 he.symm), ih h.2]

theorem dictInsert_of_mem {β : Type} (k : Txt) (v : β) (d : List (Txt × β))
    (hnd : (keys d).Nodup) (hk : k ∈ keys d) :
    dictInsert k v d = d.map (fun p => (p.1, if p.1 = k then v else p.2)) := by
  induction d with
  | nil => cases hk
  | cons p d ih =>
    simp only [keys, List.map_cons, List.nodup_cons] at hnd
    simp only [keys, List.map_cons, List.mem_cons] at hk
    simp only [dictInsert, List.map_cons]
    by_cases hp : p.1 = k
    · rw [if_pos hp, if_pos hp, map_update_of_not_mem k v d (hp ▸ hnd.1)]
    · rw [if_neg hp, if_neg hp]
      have hk' : k ∈ keys d := by
        rcases hk with h | h
        · exact absurd h.symm hp
        · exact h
      rw [ih hnd.2 hk']

theorem dictInsert_of_not_mem {β : Type} (k : Txt) (v : β) (d : List (Txt × β))
    (h : k ∉ keys d) : dictInsert k v d = d ++ [(k, v)] := by
  induction d with
  | nil => rfl
  | cons p d ih =>
    simp only [keys, List.map_cons, List.mem_cons] at h
    push_neg at h
    simp only [dictInsert, List.cons_append]
    rw [if_neg (fun he => h.1 he.symm), ih h.2]

theorem keys_map_update {β : Type} (k : Txt) (v : β) (d : List (Txt × β)) :
    keys (d.map (fun p => (p.1, if p.1 = k then v else p.2))) = keys d := by
  simp [keys, List.map_map, Function.comp]

theorem filter_keys_append (l : List Item) (ks : List Txt) (a : Txt) :
    l.filter (fun x => !(decide (x.video_id ∈ ks ++ [a])))
      = (l.filter (fun x => !(decide (x.video_id ∈ ks)))).filter
          (fun x => !(decide (x.video_id = a))) := by
  induction l with
  | nil => rfl
  | cons x l ih =>
    have hmem : (x.video_id ∈ ks ++ [a]) ↔ (x.video_id ∈ ks ∨ x.video_id = a) := by
      simp [List.mem_append]
    by_cases h1 : x.video_id ∈ ks
    · have e1 : (!(decide (x.video_id ∈ ks ++ [a]))) = false := by simp [hmem, h1]
      have e2 : (!(decide (x.video_id ∈ ks))) = false := by simp [h1]
      rw [List.filter_cons, List.filter_cons, e1, e2]
      simp only [Bool.false_eq_true, if_false]
      exact ih
    · by_cases h2 : x.video_id = a
      · have e1 : (!(decide (x.video_id ∈ ks ++ [a]))) = false := by simp [hmem, h2]
        have e2 : (!(decide (x.video_id ∈ ks))) = true := by simp [h1]
        have e3 : (!(decide (x.video_id = a))) = false := by simp [h2]
        rw [List.filter_cons, List.filter_cons, e1, e2]
        simp only [Bool.false_eq_true, if_false, if_true]
        rw [List.filter_cons, e3]
        simp only [Bool.false_eq_true, if_false]
        exact ih
      · have e1 : (!(decide (x.video_id ∈ ks ++ [a]))) = true := by simp [hmem, h1, h2]
        have e2 : (!(decide (x.video_id ∈ ks))) = true := by simp [h1]
        have e3 : (!(decide (x.video_id = a))) = true := by simp [h2]
        rw [List.filter_cons, List.filter_cons, e1, e2]
        simp only [if_true]
        rw [List.filter_cons, e3]
        simp only [if_true]
        rw [ih]

theorem fst_mem_keys {β : Type} (p : Txt × β) (d : List (Txt × β)) (h : p ∈ d) :
    p.1 ∈ keys d := by
  simp only [keys, List.mem_map]
  exact ⟨p, h, rfl⟩

theorem map_update_lastWithDefault (v : Item) (l : List Item) (d : List (Txt × Item)) :
    (d.map (fun p => (p.1, if p.1 = v.video_id then v else p.2))).map
        (fun p => lastWithDefault p.1 l p.2)
      = d.map (fun p => lastWithDefault p.1 (v :: l) p.2) := by
  rw [List.map_map]
  apply List.map_congr_left
  intro p _
  simp only [Function.comp]
  rw [lastWithDefault_cons]
  by_cases hp : p.1 = v.video_id
  · rw [if_pos hp, if_pos hp.symm]
  · rw [if_neg hp, if_neg (fun he => hp he.symm)]

theorem map_cons_lastWithDefault (v : Item) (l : List Item) (d : List (Txt × Item))
    (hk : v.video_id ∉ keys d) :
    d.map (fun p => lastWithDefault p.1 (v :: l) p.2)
      = d.map (fun p => lastWithDefault p.1 l p.2) := by
  apply List.map_congr_left
  intro p hp
  rw [lastWithDefault_cons]
  have hne : ¬ v.video_id = p.1 := by
    intro he
    apply hk
    rw [he]
    exact fst_mem_keys p d hp
  rw [if_neg hne]

theorem keys_nodup_dictInsert (k : Txt) (v : Item) (d : List (Txt × Item))
    (hnd : (keys d).Nodup) : (keys (dictInsert k v d)).Nodup := by
  by_cases hk : k ∈ keys d
  · rw [dictInsert_of_mem k v d hnd hk, keys_map_update]
    exact hnd
  · rw [dictInsert_of_not_mem k v d hk]
    have hkeys : keys (d ++ [(k, v)]) = keys d ++ [k] := by simp [keys]
    rw [hkeys, List.nodup_append]
    refine ⟨hnd, List.nodup_singleton k, ?_⟩
    intro a ha hak
    rw [List.mem_singleton] at hak
    exact hk (hak ▸ ha)

theorem dictFold_snd_spec (l : List Item) :
    ∀ d : List (Txt × Item), (keys d).Nodup →
      (dictFold d l).map Prod.snd
        = d.map (fun p => lastWithDefault p.1 l p.2)
          ++ dedupSpec (l.filter (fun x => !(decide (x.video_id ∈ keys d)))) := by
  induction l with
  | nil =>
    intro d _
    simp [dictFold, dedupSpec, lastWithDefault]
  | cons v l ih =>
    intro d hnd
    have hstep : dictFold d (v :: l) = dictFold (dictInsert v.video_id v d) l := rfl
    rw [hstep]
    have hnd' : (keys (dictInsert v.video_id v d)).Nodup :=
      keys_nodup_dictInsert v.video_id v d hnd
    by_cases hk : v.video_id ∈ keys d
    · have hins := dictInsert_of_mem v.video_id v d hnd hk
      rw [ih (dictInsert v.video_id v d) hnd', hins, map_update_lastWithDefault,
          keys_map_update]
      have hfil : (v :: l).filter (fun x => !(decide (x.video_id ∈ keys d)))
          = l.filter (fun x => !(decide (x.video_id ∈ keys d))) := by
        rw [List.filter_cons]
        simp [hk]
      rw [hfil]
    · have hins := dictInsert_of_not_mem v.video_id v d hk
      rw [ih (dictInsert v.video_id v d) hnd', hins]
      have hkeys : keys (d ++ [(v.video_id, v)]) = keys d ++ [v.video_id] := by
        simp [keys]
      rw [hkeys, List.map_append, filter_keys_append]
      have hfil : (v :: l).filter (fun x => !(decide (x.video_id ∈ keys d)))
          = v :: l.filter (fun x => !(decide (x.video_id ∈ keys d))) := by
        rw [List.filter_cons]
        simp [hk]
      rw [hfil]
      have hded : dedupSpec (v :: l.filter (fun x => !(decide (x.video_id ∈ keys d))))
          = lastWithDefault v.video_id
              (l.filter (fun x => !(decide (x.video_id ∈ keys d)))) v
            :: dedupSpec ((l.filter (fun x => !(decide (x.video_id ∈ keys d)))).filter
                (fun x => !(decide (x.video_id = v.video_id)))) := by
        simp only [dedupSpec]
      rw [hded,
          lastWithDefault_filter v.video_id l _ (fun x hx => by simp [hx, hk]) v,
          map_cons_lastWithDefault v l d hk]
      simp only [List.map_cons, List.map_nil, List.append_assoc, List.singleton_append]

theorem pythonDedup_eq_dedupSpec (l : List Item) : pythonDedup l = dedupSpec l := by
  have h := dictFold_snd_spec l [] (by simp [keys])
  have h0 : pythonDedup l = (dictFold [] l).map Prod.snd := rfl
  rw [h0, h]
  simp only [List.map_nil, List.nil_append]
  congr 1
  rw [List.filter_eq_self]
  intro a _
  simp [keys]

theorem dedupSpec_map_video_id (l : List Item) :
    (dedupSpec l).map (fun v => v.video_id) = firstIds l := by
  cases l with
  | nil => simp [dedupSpec, firstIds]
  | cons v rest =>
    have ih :=
      dedupSpec_map_video_id (rest.filter (fun x => !(decide (x.video_id = v.video_id))))
    simp only [dedupSpec, firstIds, List.map_cons, ih]
    rw [lastWithDefault_id v.video_id rest v rfl]
termination_by l.length
decreasing_by
  simp only [List.length_cons]
  exact Nat.lt_succ_of_le (List.length_filter_le _ _)

theorem dedupSpec_subset (l : List Item) : ∀ v ∈ dedupSpec l, v ∈ l := by
  cases l with
  | nil => simp [dedupSpec]
  | cons x rest =>
    intro v hv
    have ih :=
      dedupSpec_subset (rest.filter (fun y => !(decide (y.video_id = x.video_id))))
    simp only [dedupSpec] at hv
    rcases List.mem_cons.mp hv with hv | hv
    · subst hv
      rcases lastWithDefault_mem x.video_id rest x with h | h
      · rw [h]
        exact List.mem_cons_self x rest
      · exact List.mem_cons_of_mem x h
    · exact List.mem_cons_of_mem x (List.mem_of_mem_filter (ih v hv))
termination_by l.length
decreasing_by
  simp only [List.length_cons]
  exact Nat.lt_succ_of_le (List.length_filter_le _ _)

/-- C1 (amended): one run schedules every error-dict entry first, as a retry
unit with placeholder metadata, then every de-duplicated discovered item
whose identifier is absent from the processed set or present in the error
dict; de-duplication keeps one item per identifier, at the position of the
identifier's first occurrence, but the metadata kept is that of the LAST
occurrence (CPython dict overwrite semantics), not the first. -/
theorem C1_scheduled_work (errs : List (Txt × Txt)) (processed : Finset Txt)
    (discovered : List Item) :
    (scheduledWork errs processed discovered
        = errs.map (fun p => ⟨placeholderItem p.1, true⟩)
          ++ ((dedupSpec discovered).filter
              (fun v => !(decide (v.video_id ∈ processed))
                || decide (v.video_id ∈ keys errs))).map (fun v => ⟨v, false⟩))
      ∧ (pythonDedup discovered).map (fun v => v.video_id) = firstIds discovered
      ∧ ((pythonDedup discovered).all (fun v => decide (v ∈ discovered))) = true := by
  refine ⟨?_, ?_, ?_⟩
  · simp only [scheduledWork, pythonDedup_eq_dedupSpec]
  · rw [pythonDedup_eq_dedupSpec]
    exact dedupSpec_map_video_id discovered
  · rw [pythonDedup_eq_dedupSpec]
    simp only [List.all_eq_true, decide_eq_true_eq]
    exact dedupSpec_subset discovered

/-- Two discovered occurrences of the same identifier with different
metadata. -/
def c1itemA1 : Item := ⟨"a".toList, "first title".toList, "chan1".toList, "t1".toList⟩

def c1itemA2 : Item := ⟨"a".toList, "second title".toList, "chan2".toList, "t2".toList⟩

/-- C1 witness: the amended schedule evaluated on concrete inputs. -/
theorem C1_scheduled_work_witness :
    (scheduledWork [("e".toList, "p".toList)] ∅ [c1itemA1, c1itemA2]
        = [("e".toList, "p".toList)].map (fun p => ⟨placeholderItem p.1, true⟩)
          ++ ((dedupSpec [c1itemA1, c1itemA2]).filter
              (fun v => !(decide (v.video_id ∈ (∅ : Finset Txt)))
                || decide (v.video_id ∈ keys [("e".toList, "p".toList)]))).map
             (fun v => ⟨v, false⟩))
      ∧ (pythonDedup [c1itemA1, c1itemA2]).map (fun v => v.video_id)
          = firstIds [c1itemA1, c1itemA2]
      ∧ ((pythonDedup [c1itemA1, c1itemA2]).all
          (fun v => decide (v ∈ [c1itemA1, c1itemA2]))) = true :=
  C1_scheduled_work [("e".toList, "p".toList)] ∅ [c1itemA1, c1itemA2]

/-- C1 counterexample: with two discovered occurrences of identifier a, the
schedule keeps the SECOND occurrence's metadata, so the claim that the first
occurrence's metadata wins is false on the code. -/
theorem C1_scheduled_work_counterexample :
    scheduledWork [] ∅ [c1itemA1, c1itemA2] = [⟨c1itemA2, false⟩]
      ∧ scheduledWork [] ∅ [c1itemA1, c1itemA2] ≠ [⟨c1itemA1, false⟩]
      ∧ c1itemA1.video_id = c1itemA2.video_id
      ∧ c1itemA1 ≠ c1itemA2 := by
  refine ⟨?_, ?_, ?_, ?_⟩ <;> decide
